import Mathlib

/-!
# RBAC policy synchronisation: `controllers/rbac_sync.go`

A shallow embedding of the reconciler of `controllers/rbac_sync.go` and the
properties of it that the specification states.

The Kubernetes client and the HTTP client are collaborators of the reconciler;
they are embedded as the fields of `PolicyReconciler`, one function per call the
source makes.  The reconciler is embedded as a function returning the sequence of
object-store reads and HTTP requests it performs, together with the way it ends
(a returned `(Result, error)` pair, or a run-time panic).
-/

namespace RbacSync

/-! ## Data model -/

/-- One access-control fact, `aclrule` (source lines 42-47). -/
structure aclrule where
  Subject : String
  ManagedCluster : String
  Namespace : String
  Role : String
deriving DecidableEq, Repr

/-- The unit of synchronisation, `aclentry` (source lines 37-40).  A Go `nil`
slice and an empty slice are both the empty list. -/
structure aclentry where
  RuleId : String
  Rules : List aclrule
deriving DecidableEq, Repr

/-- Errors of the object-store client.  `errors.IsNotFound` distinguishes the
first kind from every other. -/
inductive ReadError where
  | notFound (msg : String)
  | other (msg : String)
deriving DecidableEq, Repr

/-- The test `errors.IsNotFound(err)`. -/
def IsNotFound : ReadError → Bool
  | .notFound _ => true
  | .other _ => false

/-- An entry of `rbacV1.RoleBinding.Subjects`; only `Name` is read. -/
structure RbacSubject where
  Name : String
deriving DecidableEq, Repr

/-- The fields of `rbacV1.RoleBinding` that the reconciler reads:
`Subjects`, `RoleRef.Name` and `Namespace`. -/
structure RoleBinding where
  Subjects : List RbacSubject
  RoleRefName : String
  Namespace : String
deriving DecidableEq, Repr

/-- An object template of a ConfigurationPolicy.  `rolebinding` is the value of the
local variable `rolebinding` after
`json.Unmarshal(objectT.ObjectDefinition.Raw, &rolebinding)` (line 137), whose error
is discarded: a document that is not JSON leaves the zero value (no subjects, empty
strings). -/
structure ObjectTemplate where
  rolebinding : RoleBinding
deriving DecidableEq, Repr

/-- The value of `configPolicy` after the typed `json.Unmarshal` of line 132: only
`Spec.ObjectTemplates` is read.  It is a slice of pointers: a JSON `null` entry of
`object-templates` is a nil pointer, here `none`. -/
structure ConfigurationPolicy where
  ObjectTemplates : List (Option ObjectTemplate)
deriving DecidableEq, Repr

/-- A value of a generically decoded JSON object, as far as line 179 inspects it: a
string, or anything else. -/
inductive JsonValue where
  | str (s : String)
  | other
deriving DecidableEq, Repr

/-- A policy template.  `jsonDef` is the map produced by the generic
`json.Unmarshal` of line 177 (`none` when it stays `nil`), `configPolicy` the result
of the typed one of line 132. -/
structure PolicyTemplate where
  jsonDef : Option (List (String × JsonValue))
  configPolicy : ConfigurationPolicy
deriving DecidableEq, Repr

/-- The fields of `policiesv1.Policy` that the reconciler reads; `PolicyTemplates`
is `Spec.PolicyTemplates`.  Its entries are non-nil: the schema of the Policy resource
requires every entry of `policy-templates` to be an object. -/
structure Policy where
  Namespace : String
  Name : String
  Annotations : List (String × String)
  PolicyTemplates : List PolicyTemplate
deriving DecidableEq, Repr

/-- A subject of a placement binding. -/
structure Subject where
  APIGroup : String
  Kind : String
  Name : String
deriving DecidableEq, Repr

/-- The `placementRef` of a placement binding. -/
structure PlacementSubject where
  APIGroup : String
  Kind : String
  Name : String
deriving DecidableEq, Repr

/-- The fields of a placement binding that the resolver reads. -/
structure PlacementBinding where
  PlacementRef : PlacementSubject
  Subjects : List Subject
deriving DecidableEq, Repr

/-- A decision of a placement rule. -/
structure PlacementDecision where
  ClusterName : String
deriving DecidableEq, Repr

/-- A placement rule; `Decisions` is `Status.Decisions`. -/
structure PlacementRule where
  Decisions : List PlacementDecision
deriving DecidableEq, Repr

/-- The request `reconcile.Request`. -/
structure Request where
  Namespace : String
  Name : String
deriving DecidableEq, Repr

/-- The value `reconcile.Result`. -/
structure Result where
  Requeue : Bool
  RequeueAfter : Nat
deriving DecidableEq, Repr

/-- The zero value `reconcile.Result{}`. -/
def Result.zero : Result := { Requeue := false, RequeueAfter := 0 }

/-- An HTTP request to the external store: the method, the part of the URL that
follows `https://localhost:8181/v1/data/acls/`, and the rule list whose JSON
encoding is the body. -/
structure HttpRequest where
  Method : String
  Key : String
  Body : List aclrule
deriving DecidableEq, Repr

/-- The URL of a request (lines 276 and 315). -/
def HttpRequest.url (q : HttpRequest) : String :=
  "https://localhost:8181/v1/data/acls/" ++ q.Key

/-- What `client.Do` and the read of the response body give: a transport error, or
a response with its status code and its body (`none` when reading it fails). -/
inductive HttpResult where
  | transportError (msg : String)
  | response (status : Nat) (body : Option String)
deriving DecidableEq, Repr

/-- The last log line of a sync call, its only observable result. -/
inductive SyncLog where
  | doFailed
  | readFailed
  | logged (body : String)
deriving DecidableEq, Repr

/-- The reconciler with its collaborators: the three object-store reads the source
performs, and of the HTTP library `NewRequest` (given a method and a URL, whether
`http.NewRequest` returns a request and no error) and the client call `Do`. -/
structure PolicyReconciler where
  getPolicy : String → String → Except ReadError Policy
  listPlacementBindings : String → Except ReadError (List PlacementBinding)
  getPlacementRule : String → String → Except ReadError PlacementRule
  NewRequest : String → String → Bool
  Do : HttpRequest → HttpResult

/-- The observable actions of a reconciliation, in order. -/
inductive Effect where
  | getPolicy (ns name : String)
  | listPlacementBindings (ns : String)
  | getPlacementRule (ns name : String)
  | http (req : HttpRequest)
deriving DecidableEq, Repr

/-- How a call of `Reconcile` ends. -/
inductive Outcome where
  | returned (result : Result) (err : Option ReadError)
  | panicked
deriving DecidableEq, Repr

/-! ## Constants of the imported API packages -/

/-- The group `policiesv1.SchemeGroupVersion.Group`. -/
def policyGroup : String := "policy.open-cluster-management.io"

/-- The constant `policiesv1.Kind`. -/
def policyKind : String := "Policy"

/-- The group `appsv1.SchemeGroupVersion.Group`. -/
def placementRuleGroup : String := "apps.open-cluster-management.io"

/-- The annotation key of line 112. -/
def processForRbac : String := "policy.open-cluster-management.io/process-for-rbac"

/-! ## Operations -/

/-- The function `strconv.ParseBool`: it accepts exactly these twelve spellings. -/
def ParseBool (str : String) : Except Unit Bool :=
  if str = "1" ∨ str = "t" ∨ str = "T" ∨ str = "TRUE" ∨ str = "true" ∨ str = "True" then
    .ok true
  else if str = "0" ∨ str = "f" ∨ str = "F" ∨ str = "FALSE" ∨ str = "false"
      ∨ str = "False" then
    .ok false
  else
    .error ()

/-- The function `isConfigurationPolicy` (lines 174-180). -/
def isConfigurationPolicy (policyT : PolicyTemplate) : Bool :=
  match policyT.jsonDef with
  | none => false
  | some jsonDef => jsonDef.lookup "kind" == some (JsonValue.str "ConfigurationPolicy")

/-- The function `postAclsToOPA` (lines 261-298): the PUT request it sends and its
last log line.  `json.Marshal` of a list of records of strings does not fail.  When
`http.NewRequest` fails the request is nil, and `request.Header.Set` (line 277),
which comes before the test of the error (line 279), panics: `none`. -/
def postAclsToOPA (r : PolicyReconciler) (acl : aclentry) : Option (HttpRequest × SyncLog) :=
  let request : HttpRequest := { Method := "PUT", Key := acl.RuleId, Body := acl.Rules }
  if r.NewRequest "PUT" request.url then
    match r.Do request with
    | .transportError _ => some (request, .doFailed)
    | .response _ none => some (request, .readFailed)
    | .response _ (some body) => some (request, .logged body)
  else
    none

/-- The function `removeAclsInOPA` (lines 300-338): as `postAclsToOPA`, with the
method DELETE; the panic is that of line 316, before the test of line 318. -/
def removeAclsInOPA (r : PolicyReconciler) (acl : aclentry) : Option (HttpRequest × SyncLog) :=
  let request : HttpRequest := { Method := "DELETE", Key := acl.RuleId, Body := acl.Rules }
  if r.NewRequest "DELETE" request.url then
    match r.Do request with
    | .transportError _ => some (request, .doFailed)
    | .response _ none => some (request, .readFailed)
    | .response _ (some body) => some (request, .logged body)
  else
    none

/-- The condition of lines 199-201 on a subject of a placement binding. -/
def subjectMatches (policy : Policy) (subject : Subject) : Bool :=
  subject.APIGroup == policyGroup && subject.Kind == policyKind && subject.Name == policy.Name

/-- The condition of line 207 on the placement reference of a binding. -/
def refersToPlacementRule (pb : PlacementBinding) : Bool :=
  pb.PlacementRef.APIGroup == placementRuleGroup && pb.PlacementRef.Kind == "PlacementRule"

/-- The inner loop of `getManagedClusters` (lines 197-235) over the subjects of one
binding; `acc` is `allManagedClusters`.  An error ends the whole function. -/
def subjectsLoop (r : PolicyReconciler) (policy : Policy) (pb : PlacementBinding) :
    List Subject → List String → List Effect × Except ReadError (List String)
  | [], acc => ([], .ok acc)
  | subject :: rest, acc =>
    if !subjectMatches policy subject then
      subjectsLoop r policy pb rest acc
    else if refersToPlacementRule pb then
      match r.getPlacementRule policy.Namespace pb.PlacementRef.Name with
      | .error err => ([.getPlacementRule policy.Namespace pb.PlacementRef.Name], .error err)
      | .ok plr =>
        let next := subjectsLoop r policy pb rest (acc ++ plr.Decisions.map (·.ClusterName))
        (.getPlacementRule policy.Namespace pb.PlacementRef.Name :: next.1, next.2)
    else
      subjectsLoop r policy pb rest acc

/-- The outer loop of `getManagedClusters` (lines 195-236) over the bindings. -/
def bindingsLoop (r : PolicyReconciler) (policy : Policy) :
    List PlacementBinding → List String → List Effect × Except ReadError (List String)
  | [], acc => ([], .ok acc)
  | pb :: rest, acc =>
    match subjectsLoop r policy pb pb.Subjects acc with
    | (t, .error err) => (t, .error err)
    | (t, .ok acc2) =>
      let next := bindingsLoop r policy rest acc2
      (t ++ next.1, next.2)

/-- The method `getManagedClusters` (lines 182-239). -/
def getManagedClusters (r : PolicyReconciler) (policy : Policy) :
    List Effect × Except ReadError (List String) :=
  match r.listPlacementBindings policy.Namespace with
  | .error err => ([.listPlacementBindings policy.Namespace], .error err)
  | .ok items =>
    let run := bindingsLoop r policy items []
    (.listPlacementBindings policy.Namespace :: run.1, run.2)

/-- The loop of lines 134-156 over the object templates of one ConfigurationPolicy;
`rules` is `acl.Rules`.  `none` is a panic: the nil dereference of
`objectT.ObjectDefinition` on a nil entry (line 137), or the index out of range of
`rolebinding.Subjects[0]` (line 140). -/
def objectTemplatesLoop (managedclusters : List String) :
    List (Option ObjectTemplate) → List aclrule → Option (List aclrule)
  | [], rules => some rules
  | none :: _, _ => none
  | some objectT :: rest, rules =>
    match objectT.rolebinding.Subjects with
    | [] => none
    | first :: _ =>
      let subject := first.Name
      let roleName := objectT.rolebinding.RoleRefName
      let roleNS := objectT.rolebinding.Namespace
      objectTemplatesLoop managedclusters rest
        (rules ++ managedclusters.map (fun mc =>
          { ManagedCluster := mc, Subject := subject, Role := roleName, Namespace := roleNS }))

/-- The loop of lines 124-161 over the policy templates: the requests sent, and
whether the loop ran to its end (`false`: it panicked). -/
def policyTemplatesLoop (r : PolicyReconciler) (request : Request)
    (managedclusters : List String) : List PolicyTemplate → List Effect × Bool
  | [] => ([], true)
  | policyT :: rest =>
    if isConfigurationPolicy policyT then
      match objectTemplatesLoop managedclusters policyT.configPolicy.ObjectTemplates [] with
      | none => ([], false)
      | some rules =>
        let acl : aclentry := { RuleId := request.Namespace ++ request.Name, Rules := rules }
        match postAclsToOPA r acl with
        | none => ([], false)
        | some sent =>
          let next := policyTemplatesLoop r request managedclusters rest
          (.http sent.1 :: next.1, next.2)
    else
      policyTemplatesLoop r request managedclusters rest

/-- The method `Reconcile` (lines 81-172). -/
def Reconcile (r : PolicyReconciler) (request : Request) : List Effect × Outcome :=
  match r.getPolicy request.Namespace request.Name with
  | .error err =>
    if IsNotFound err then
      let acl : aclentry := { RuleId := request.Namespace ++ request.Name, Rules := [] }
      match removeAclsInOPA r acl with
      | none => ([.getPolicy request.Namespace request.Name], .panicked)
      | some sent =>
        ([.getPolicy request.Namespace request.Name, .http sent.1],
          .returned Result.zero none)
    else
      ([.getPolicy request.Namespace request.Name], .returned Result.zero (some err))
  | .ok policy =>
    match policy.Annotations.lookup processForRbac with
    | none => ([.getPolicy request.Namespace request.Name], .returned Result.zero none)
    | some process_rbac =>
      match ParseBool process_rbac with
      | .ok true =>
        match getManagedClusters r policy with
        | (t, .error err) =>
          (.getPolicy request.Namespace request.Name :: t, .returned Result.zero (some err))
        | (t, .ok managedclusters) =>
          let run := policyTemplatesLoop r request managedclusters policy.PolicyTemplates
          (.getPolicy request.Namespace request.Name :: (t ++ run.1),
            if run.2 then .returned Result.zero none else .panicked)
      | _ => ([.getPolicy request.Namespace request.Name], .returned Result.zero none)

/-! ## Observations on a run -/

/-- The HTTP requests of a run, in order: the sync calls. -/
def syncCalls (trace : List Effect) : List HttpRequest :=
  trace.filterMap (fun e => match e with
    | .http q => some q
    | _ => none)

/-- The reads of placement bindings and placement rules of a run, in order. -/
def placementReads (trace : List Effect) : List Effect :=
  trace.filter (fun e => match e with
    | .listPlacementBindings _ => true
    | .getPlacementRule _ _ => true
    | _ => false)

/-- The upsert request for key `key` and rule list `rules`. -/
def upsert (key : String) (rules : List aclrule) : HttpRequest :=
  { Method := "PUT", Key := key, Body := rules }

/-- The remove request for key `key` and rule list `rules`. -/
def remove (key : String) (rules : List aclrule) : HttpRequest :=
  { Method := "DELETE", Key := key, Body := rules }

/-- A role-binding triple: what lines 140-144 take out of a role binding. -/
structure Triple where
  Subject : String
  Role : String
  Namespace : String
deriving DecidableEq, Repr

/-- The triple of a role binding whose first subject is `first`. -/
def tripleOf (first : RbacSubject) (rb : RoleBinding) : Triple :=
  { Subject := first.Name, Role := rb.RoleRefName, Namespace := rb.Namespace }

/-- The rule of line 152 for a triple and a cluster. -/
def ruleOf (t : Triple) (mc : String) : aclrule :=
  { ManagedCluster := mc, Subject := t.Subject, Role := t.Role, Namespace := t.Namespace }

/-- The triples of a list of object templates, in order; `none` when an entry is nil
or a role binding has no subject. -/
def extractTriples : List (Option ObjectTemplate) → Option (List Triple)
  | [] => some []
  | none :: _ => none
  | some objectT :: rest =>
    match objectT.rolebinding.Subjects with
    | [] => none
    | first :: _ =>
      match extractTriples rest with
      | none => none
      | some ts => some (tripleOf first objectT.rolebinding :: ts)

/-- The Cartesian product of clusters and triples with the triple as the outer
loop and the cluster as the inner one. -/
def tripleMajor (cs : List String) (ts : List Triple) : List aclrule :=
  ts.flatMap (fun t => cs.map (fun mc => ruleOf t mc))

/-- The Cartesian product as the specification words it: the cluster as the outer
loop and the triple as the inner one. -/
def clusterMajor (cs : List String) (ts : List Triple) : List aclrule :=
  cs.flatMap (fun mc => ts.map (fun t => ruleOf t mc))

/-- The rule list that lines 128-156 build for one ConfigurationPolicy template
whose object templates are all non-nil, with a role binding that has a subject. -/
def templateRules (cs : List String) (policyT : PolicyTemplate) : List aclrule :=
  tripleMajor cs ((extractTriples policyT.configPolicy.ObjectTemplates).getD [])

/-- An object template is non-nil and its role binding has a subject. -/
def subjectPresent : Option ObjectTemplate → Bool
  | none => false
  | some objectT => !objectT.rolebinding.Subjects.isEmpty

/-- Every object template of every ConfigurationPolicy template of the policy is
non-nil and embeds a role binding that has a subject. -/
def everySubjectPresent (policy : Policy) : Bool :=
  policy.PolicyTemplates.all (fun policyT =>
    !isConfigurationPolicy policyT ||
      policyT.configPolicy.ObjectTemplates.all subjectPresent)

/-- The URL of the entry of a request in the external store (lines 276 and 315). -/
def entryURL (request : Request) : String :=
  "https://localhost:8181/v1/data/acls/" ++ (request.Namespace ++ request.Name)

/-- The ConfigurationPolicy templates of a policy, in order. -/
def configurationPolicies (policy : Policy) : List PolicyTemplate :=
  policy.PolicyTemplates.filter isConfigurationPolicy

/-- The policy is enabled: the opt-in annotation is present and parses to true
(lines 112-113). -/
def enabled (policy : Policy) : Bool :=
  match policy.Annotations.lookup processForRbac with
  | none => false
  | some v =>
    match ParseBool v with
    | .ok true => true
    | _ => false

/-! ## The external store, as the specification models it -/

/-- The external store: a map from key to rule list. -/
abbrev Store := String → Option (List aclrule)

/-- The empty store. -/
def Store.empty : Store := fun _ => none

/-- Insert or replace the entry of a key. -/
def Store.put (s : Store) (key : String) (rules : List aclrule) : Store :=
  fun k => if k = key then some rules else s k

/-- Erase the entry of a key. -/
def Store.erase (s : Store) (key : String) : Store :=
  fun k => if k = key then none else s k

/-- A successful sync call on the store: PUT inserts or replaces, DELETE erases. -/
def Store.apply (s : Store) (q : HttpRequest) : Store :=
  if q.Method = "PUT" then s.put q.Key q.Body
  else if q.Method = "DELETE" then s.erase q.Key
  else s

/-- The store after the sync calls of a run, each of them succeeding. -/
def Store.run (s : Store) (trace : List Effect) : Store :=
  (syncCalls trace).foldl Store.apply s

/-- The store after a sequence of object-store states, each followed by a
`Reconcile` of `request`. -/
def reconcileAll (request : Request) : Store → List PolicyReconciler → Store
  | s, [] => s
  | s, r :: rest => reconcileAll request (Store.run s (Reconcile r request).1) rest

/-- The store holds an entry under the key. -/
def Store.holds (s : Store) (key : String) : Bool := (s key).isSome

/-- The policy of the request is reported not-found. -/
def policyNotFound (r : PolicyReconciler) (request : Request) : Bool :=
  match r.getPolicy request.Namespace request.Name with
  | .error err => IsNotFound err
  | .ok _ => false

/-- The policy of the request exists and its opt-in annotation has the value
"true". -/
def annotatedTrue (r : PolicyReconciler) (request : Request) : Bool :=
  match r.getPolicy request.Namespace request.Name with
  | .error _ => false
  | .ok policy => policy.Annotations.lookup processForRbac == some "true"

/-- The reconciliation pushes an entry: the policy exists, is enabled, its cluster
resolution succeeds and it has a ConfigurationPolicy template. -/
def pushesEntry (r : PolicyReconciler) (request : Request) : Bool :=
  match r.getPolicy request.Namespace request.Name with
  | .error _ => false
  | .ok policy =>
    enabled policy &&
      (match (getManagedClusters r policy).2 with
        | .ok _ => true
        | .error _ => false) &&
      !(configurationPolicies policy).isEmpty

/-! ## Placement resolution, as the specification words it -/

/-- A binding binds the policy: one of its subjects names it. -/
def bindsPolicy (policy : Policy) (pb : PlacementBinding) : Bool :=
  pb.Subjects.any (subjectMatches policy)

/-- The cluster names of the decisions of a placement rule, in order. -/
def clusterNames (plr : PlacementRule) : List String :=
  plr.Decisions.map (·.ClusterName)

/-- The resolved clusters as the specification words them: each binding that binds
the policy and refers to a placement rule contributes the decisions of its rule
once. -/
def clustersPerBinding (policy : Policy) (pbs : List PlacementBinding)
    (rule : String → PlacementRule) : List String :=
  (pbs.filter (fun pb => bindsPolicy policy pb && refersToPlacementRule pb)).flatMap
    (fun pb => clusterNames (rule pb.PlacementRef.Name))

/-- The resolved clusters with one contribution for each subject that names the
policy. -/
def clustersPerSubject (policy : Policy) (pbs : List PlacementBinding)
    (rule : String → PlacementRule) : List String :=
  pbs.flatMap (fun pb =>
    (pb.Subjects.filter (subjectMatches policy)).flatMap (fun _ =>
      if refersToPlacementRule pb then clusterNames (rule pb.PlacementRef.Name) else []))

/-- The placement rule that a fetch gives, the rule without decisions when the
fetch fails. -/
def fetchedRule (r : PolicyReconciler) (ns name : String) : PlacementRule :=
  match r.getPlacementRule ns name with
  | .ok plr => plr
  | .error _ => { Decisions := [] }

/-! ## Example objects -/

/-- The role binding of scenario A. -/
def aliceBinding : RoleBinding :=
  { Subjects := [{ Name := "alice" }], RoleRefName := "viewer", Namespace := "ns1" }

/-- A second role binding. -/
def bobBinding : RoleBinding :=
  { Subjects := [{ Name := "bob" }], RoleRefName := "editor", Namespace := "ns2" }

/-- The role binding left by a document that does not parse: the zero value. -/
def zeroBinding : RoleBinding :=
  { Subjects := [], RoleRefName := "", Namespace := "" }

/-- A ConfigurationPolicy template with the given role bindings. -/
def configTemplate (bindings : List RoleBinding) : PolicyTemplate :=
  { jsonDef := some [("apiVersion", .str "policy.open-cluster-management.io/v1"),
      ("kind", .str "ConfigurationPolicy")],
    configPolicy := { ObjectTemplates := bindings.map (fun rb => some { rolebinding := rb }) } }

/-- The policy `default/p1` with the given annotation value and templates. -/
def policyP1 (optIn : Option String) (templates : List PolicyTemplate) : Policy :=
  { Namespace := "default", Name := "p1",
    Annotations := match optIn with
      | none => []
      | some v => [(processForRbac, v)],
    PolicyTemplates := templates }

/-- A placement binding of `default/p1` to a placement rule, with the given number
of subjects naming the policy. -/
def bindingTo (rule : String) (copies : Nat) : PlacementBinding :=
  { PlacementRef := { APIGroup := placementRuleGroup, Kind := "PlacementRule", Name := rule },
    Subjects := List.replicate copies
      { APIGroup := policyGroup, Kind := policyKind, Name := "p1" } }

/-- The outcome of `http.NewRequest` on the URLs of the examples: the URL of the key
`default%zz` is rejected (`%zz` is not a URL escape), the others, all made of the
names of Kubernetes objects, are accepted. -/
def exampleNewRequest (_method url : String) : Bool :=
  !(url == "https://localhost:8181/v1/data/acls/default%zz")

/-- An object store holding (or failing to give) the policy `default/p1`, the given
placement bindings and the given placement rules, all in namespace `default`, with
an external store that answers with `answer`. -/
def objectStore (policy : Except ReadError Policy) (pbs : List PlacementBinding)
    (rules : List (String × List String)) (answer : HttpResult) : PolicyReconciler :=
  { getPolicy := fun ns name =>
      if ns = "default" ∧ name = "p1" then policy else .error (.notFound name),
    listPlacementBindings := fun ns => if ns = "default" then .ok pbs else .ok [],
    getPlacementRule := fun ns name =>
      match (if ns = "default" then rules.lookup name else none) with
      | some cs => .ok { Decisions := cs.map PlacementDecision.mk }
      | none => .error (.notFound name),
    NewRequest := exampleNewRequest,
    Do := fun _ => answer }

/-- The request for `default/p1`. -/
def requestP1 : Request := { Namespace := "default", Name := "p1" }

/-- Scenario A: `default/p1` enabled, one ConfigurationPolicy template with the
role binding of alice, bound to a rule deciding `c1` and `c2`. -/
def scenarioA : PolicyReconciler :=
  objectStore (.ok (policyP1 (some "true") [configTemplate [aliceBinding]]))
    [bindingTo "r1" 1] [("r1", ["c1", "c2"])] (.response 200 (some ""))

/-- Scenario B: the policy is deleted, and the external store is unreachable. -/
def scenarioB : PolicyReconciler :=
  objectStore (.error (.notFound "p1")) [bindingTo "r1" 1] [("r1", ["c1", "c2"])]
    (.transportError "connection refused")

/-- Scenario C: as scenario A with the annotation value "false". -/
def scenarioC : PolicyReconciler :=
  objectStore (.ok (policyP1 (some "false") [configTemplate [aliceBinding]]))
    [bindingTo "r1" 1] [("r1", ["c1", "c2"])] (.response 200 (some ""))

/-- An enabled policy with no policy template at all. -/
def noTemplates : PolicyReconciler :=
  objectStore (.ok (policyP1 (some "true") []))
    [bindingTo "r1" 1] [("r1", ["c1"])] (.response 200 (some ""))

/-- An enabled policy with two ConfigurationPolicy templates of one role binding
each, resolved to the single cluster `c1`. -/
def twoTemplates : PolicyReconciler :=
  objectStore (.ok (policyP1 (some "true")
      [configTemplate [aliceBinding], configTemplate [bobBinding]]))
    [bindingTo "r1" 1] [("r1", ["c1"])] (.response 200 (some ""))

/-- An enabled policy with one ConfigurationPolicy template of two role bindings,
resolved to the clusters `c1` and `c2`. -/
def twoBindings : PolicyReconciler :=
  objectStore (.ok (policyP1 (some "true") [configTemplate [aliceBinding, bobBinding]]))
    [bindingTo "r1" 1] [("r1", ["c1", "c2"])] (.response 200 (some ""))

/-- An enabled policy whose only object template embeds a document that does not
parse as a role binding, resolved to the cluster `c1`. -/
def malformedBinding : PolicyReconciler :=
  objectStore (.ok (policyP1 (some "true") [configTemplate [zeroBinding]]))
    [bindingTo "r1" 1] [("r1", ["c1"])] (.response 200 (some ""))

/-- An enabled policy whose only object template embeds a role binding with a role
and a namespace but an empty subject list, resolved to the cluster `c1`. -/
def subjectlessBinding : PolicyReconciler :=
  objectStore (.ok (policyP1 (some "true")
      [configTemplate [{ Subjects := [], RoleRefName := "viewer", Namespace := "ns1" }]]))
    [bindingTo "r1" 1] [("r1", ["c1"])] (.response 200 (some ""))

/-- The request for `default/%zz`, a name that no Kubernetes object has and that
makes the URL of the entry unparsable. -/
def requestUnparsable : Request := { Namespace := "default", Name := "%zz" }

/-- An enabled policy whose ConfigurationPolicy template reads
`object-templates: [null]`, resolved to the cluster `c1`. -/
def nullObjectTemplate : PolicyReconciler :=
  objectStore (.ok (policyP1 (some "true")
      [{ jsonDef := some [("kind", .str "ConfigurationPolicy")],
         configPolicy := { ObjectTemplates := [none] } }]))
    [bindingTo "r1" 1] [("r1", ["c1"])] (.response 200 (some ""))

/-- Scenario E: two bindings of the policy to two rules that both decide `c1`. -/
def scenarioE : PolicyReconciler :=
  objectStore (.ok (policyP1 (some "true") [configTemplate [aliceBinding]]))
    [bindingTo "r1" 1, bindingTo "r2" 1] [("r1", ["c1"]), ("r2", ["c1"])]
    (.response 200 (some ""))

/-- One binding that names the policy in two of its subjects, to a rule deciding
`c1`. -/
def doubleSubject : PolicyReconciler :=
  objectStore (.ok (policyP1 (some "true") [configTemplate [aliceBinding]]))
    [bindingTo "r1" 2] [("r1", ["c1"])] (.response 200 (some ""))

/-- An enabled policy with a ConfigurationPolicy template, bound to a placement
rule that does not exist. -/
def missingRule : PolicyReconciler :=
  objectStore (.ok (policyP1 (some "true") [configTemplate [aliceBinding]]))
    [bindingTo "r1" 1] [] (.response 200 (some ""))

/-- As scenario A with the annotation value "1". -/
def annotatedOne : PolicyReconciler :=
  objectStore (.ok (policyP1 (some "1") [configTemplate [aliceBinding]]))
    [bindingTo "r1" 1] [("r1", ["c1", "c2"])] (.response 200 (some ""))

/-! ## Theorems -/


/-! ### The sync clients -/

theorem postAclsToOPA_sent (r : PolicyReconciler) (acl : aclentry)
    (sent : HttpRequest × SyncLog) (h : postAclsToOPA r acl = some sent) :
    sent.1 = upsert acl.RuleId acl.Rules := by
  simp only [postAclsToOPA, upsert] at h ⊢
  split at h
  · split at h <;> cases h <;> rfl
  · cases h

theorem postAclsToOPA_accepted (r : PolicyReconciler) (acl : aclentry)
    (h : r.NewRequest "PUT" ("https://localhost:8181/v1/data/acls/" ++ acl.RuleId) = true) :
    ∃ sent, postAclsToOPA r acl = some sent ∧ sent.1 = upsert acl.RuleId acl.Rules := by
  simp only [postAclsToOPA, upsert, HttpRequest.url, h, if_true]
  split <;> exact ⟨_, rfl, rfl⟩

theorem postAclsToOPA_rejected (r : PolicyReconciler) (acl : aclentry)
    (h : r.NewRequest "PUT" ("https://localhost:8181/v1/data/acls/" ++ acl.RuleId) = false) :
    postAclsToOPA r acl = none := by
  simp [postAclsToOPA, HttpRequest.url, h]

theorem removeAclsInOPA_accepted (r : PolicyReconciler) (acl : aclentry)
    (h : r.NewRequest "DELETE" ("https://localhost:8181/v1/data/acls/" ++ acl.RuleId) = true) :
    ∃ sent, removeAclsInOPA r acl = some sent ∧ sent.1 = remove acl.RuleId acl.Rules := by
  simp only [removeAclsInOPA, remove, HttpRequest.url, h, if_true]
  split <;> exact ⟨_, rfl, rfl⟩

theorem removeAclsInOPA_rejected (r : PolicyReconciler) (acl : aclentry)
    (h : r.NewRequest "DELETE" ("https://localhost:8181/v1/data/acls/" ++ acl.RuleId) = false) :
    removeAclsInOPA r acl = none := by
  simp [removeAclsInOPA, HttpRequest.url, h]

/-! ### The annotation gate -/

theorem enabled_iff (policy : Policy) :
    enabled policy = true ↔
      ∃ v, policy.Annotations.lookup processForRbac = some v ∧ ParseBool v = .ok true := by
  unfold enabled
  cases hv : policy.Annotations.lookup processForRbac with
  | none => simp
  | some v =>
    simp only [Option.some.injEq, exists_eq_left']
    split
    · next hp => simp [hp]
    · next hp =>
      constructor
      · intro h; cases h
      · intro h; exact absurd h (by simpa using hp)

theorem enabled_of_parse (policy : Policy) (v : String)
    (hann : policy.Annotations.lookup processForRbac = some v)
    (hparse : ParseBool v = .ok true) : enabled policy = true :=
  (enabled_iff policy).2 ⟨v, hann, hparse⟩

theorem enabled_false_of_absent (policy : Policy)
    (hann : policy.Annotations.lookup processForRbac = none) : enabled policy = false := by
  simp [enabled, hann]

theorem enabled_false_of_parse (policy : Policy) (v : String)
    (hann : policy.Annotations.lookup processForRbac = some v)
    (hparse : ParseBool v ≠ .ok true) : enabled policy = false := by
  cases h : enabled policy with
  | false => rfl
  | true =>
    obtain ⟨w, hw, hp⟩ := (enabled_iff policy).1 h
    rw [hann] at hw
    cases hw
    exact absurd hp hparse

/-! ### The shape of a reconciliation -/

theorem Reconcile_notFound (r : PolicyReconciler) (request : Request) (err : ReadError)
    (hget : r.getPolicy request.Namespace request.Name = .error err)
    (hnf : IsNotFound err = true)
    (hdel : r.NewRequest "DELETE" (entryURL request) = true) :
    Reconcile r request =
      ([.getPolicy request.Namespace request.Name,
        .http (remove (request.Namespace ++ request.Name) [])],
        .returned Result.zero none) := by
  obtain ⟨sent, hs, h1⟩ := removeAclsInOPA_accepted r
    { RuleId := request.Namespace ++ request.Name, Rules := [] } hdel
  simp only [Reconcile, hget, hnf, if_true, hs, h1]

/-- A not-found whose DELETE request cannot be built: the nil dereference of line
316 ends the reconciliation before anything is sent. -/
theorem Reconcile_notFound_rejected (r : PolicyReconciler) (request : Request)
    (err : ReadError)
    (hget : r.getPolicy request.Namespace request.Name = .error err)
    (hnf : IsNotFound err = true)
    (hdel : r.NewRequest "DELETE" (entryURL request) = false) :
    Reconcile r request = ([.getPolicy request.Namespace request.Name], .panicked) := by
  have hs := removeAclsInOPA_rejected r
    { RuleId := request.Namespace ++ request.Name, Rules := [] } hdel
  simp only [Reconcile, hget, hnf, if_true, hs]

theorem Reconcile_getFailed (r : PolicyReconciler) (request : Request) (err : ReadError)
    (hget : r.getPolicy request.Namespace request.Name = .error err)
    (hnf : IsNotFound err = false) :
    Reconcile r request =
      ([.getPolicy request.Namespace request.Name], .returned Result.zero (some err)) := by
  simp [Reconcile, hget, hnf]

theorem Reconcile_disabled (r : PolicyReconciler) (request : Request) (policy : Policy)
    (hget : r.getPolicy request.Namespace request.Name = .ok policy)
    (hoff : enabled policy = false) :
    Reconcile r request =
      ([.getPolicy request.Namespace request.Name], .returned Result.zero none) := by
  simp only [Reconcile, hget]
  split
  · rfl
  · next v hv =>
    split
    · next hp => rw [enabled_of_parse policy v hv hp] at hoff; cases hoff
    · rfl

theorem Reconcile_resolveFailed (r : PolicyReconciler) (request : Request) (policy : Policy)
    (t : List Effect) (err : ReadError)
    (hget : r.getPolicy request.Namespace request.Name = .ok policy)
    (hon : enabled policy = true)
    (hres : getManagedClusters r policy = (t, .error err)) :
    Reconcile r request =
      (.getPolicy request.Namespace request.Name :: t, .returned Result.zero (some err)) := by
  obtain ⟨v, hv, hp⟩ := (enabled_iff policy).1 hon
  simp [Reconcile, hget, hv, hp, hres]

theorem Reconcile_resolved (r : PolicyReconciler) (request : Request) (policy : Policy)
    (t : List Effect) (cs : List String)
    (hget : r.getPolicy request.Namespace request.Name = .ok policy)
    (hon : enabled policy = true)
    (hres : getManagedClusters r policy = (t, .ok cs)) :
    Reconcile r request =
      (.getPolicy request.Namespace request.Name ::
          (t ++ (policyTemplatesLoop r request cs policy.PolicyTemplates).1),
        if (policyTemplatesLoop r request cs policy.PolicyTemplates).2 then
          .returned Result.zero none else .panicked) := by
  obtain ⟨v, hv, hp⟩ := (enabled_iff policy).1 hon
  simp [Reconcile, hget, hv, hp, hres]

/-! ### Placement resolution performs reads only -/

theorem syncCalls_nil : syncCalls [] = [] := rfl

theorem syncCalls_append (a b : List Effect) :
    syncCalls (a ++ b) = syncCalls a ++ syncCalls b := by
  simp [syncCalls, List.filterMap_append]

theorem syncCalls_http_cons (q : HttpRequest) (t : List Effect) :
    syncCalls (.http q :: t) = q :: syncCalls t := by
  simp [syncCalls]

theorem syncCalls_getPolicy_cons (ns name : String) (t : List Effect) :
    syncCalls (.getPolicy ns name :: t) = syncCalls t := by
  simp [syncCalls]

theorem syncCalls_getPlacementRule_cons (ns name : String) (t : List Effect) :
    syncCalls (.getPlacementRule ns name :: t) = syncCalls t := by
  simp [syncCalls]

theorem syncCalls_listPlacementBindings_cons (ns : String) (t : List Effect) :
    syncCalls (.listPlacementBindings ns :: t) = syncCalls t := by
  simp [syncCalls]

theorem syncCalls_map_http {α : Type} (f : α → HttpRequest) (l : List α) :
    syncCalls (l.map (fun x => Effect.http (f x))) = l.map f := by
  induction l with
  | nil => rfl
  | cons x rest ih => simp only [List.map_cons, syncCalls_http_cons, ih]

theorem syncCalls_subjectsLoop (r : PolicyReconciler) (policy : Policy) (pb : PlacementBinding)
    (subjects : List Subject) (acc : List String) :
    syncCalls (subjectsLoop r policy pb subjects acc).1 = [] := by
  induction subjects generalizing acc with
  | nil => rfl
  | cons subject rest ih =>
    unfold subjectsLoop
    split
    · exact ih acc
    · split
      · split
        · rfl
        · simp only [syncCalls_getPlacementRule_cons]
          exact ih _
      · exact ih acc

theorem syncCalls_bindingsLoop (r : PolicyReconciler) (policy : Policy)
    (pbs : List PlacementBinding) (acc : List String) :
    syncCalls (bindingsLoop r policy pbs acc).1 = [] := by
  induction pbs generalizing acc with
  | nil => rfl
  | cons pb rest ih =>
    unfold bindingsLoop
    have h := syncCalls_subjectsLoop r policy pb pb.Subjects acc
    split
    · next t err heq => rw [heq] at h; exact h
    · next t acc2 heq =>
      rw [heq] at h
      simp only [syncCalls_append, h, ih acc2, List.append_nil]

theorem syncCalls_getManagedClusters (r : PolicyReconciler) (policy : Policy) :
    syncCalls (getManagedClusters r policy).1 = [] := by
  unfold getManagedClusters
  split
  · rfl
  · simp only [syncCalls_listPlacementBindings_cons]
    exact syncCalls_bindingsLoop r policy _ []

/-! ### Extraction and aggregation -/

theorem objectTemplatesLoop_eq (cs : List String) (objs : List (Option ObjectTemplate))
    (rules : List aclrule) :
    objectTemplatesLoop cs objs rules =
      (extractTriples objs).map (fun ts => rules ++ tripleMajor cs ts) := by
  induction objs generalizing rules with
  | nil => simp [objectTemplatesLoop, extractTriples, tripleMajor]
  | cons entry rest ih =>
    cases entry with
    | none => simp [objectTemplatesLoop, extractTriples]
    | some objectT =>
      unfold objectTemplatesLoop extractTriples
      cases hs : objectT.rolebinding.Subjects with
      | nil => rfl
      | cons first more =>
        simp only [ih]
        cases extractTriples rest with
        | none => rfl
        | some ts =>
          simp [tripleMajor, List.flatMap_cons, tripleOf, ruleOf]

theorem extractTriples_length (objs : List (Option ObjectTemplate)) (ts : List Triple)
    (h : extractTriples objs = some ts) : ts.length = objs.length := by
  induction objs generalizing ts with
  | nil => simp [extractTriples] at h; simp [← h]
  | cons entry rest ih =>
    cases entry with
    | none => simp [extractTriples] at h
    | some objectT =>
      unfold extractTriples at h
      split at h
      · cases h
      · split at h
        · cases h
        · next ts2 hts =>
          cases h
          simp [ih ts2 hts]

theorem extractTriples_isSome (objs : List (Option ObjectTemplate))
    (h : objs.all subjectPresent = true) :
    ∃ ts, extractTriples objs = some ts := by
  induction objs with
  | nil => exact ⟨[], rfl⟩
  | cons entry rest ih =>
    simp only [List.all_cons, Bool.and_eq_true] at h
    obtain ⟨ts, hts⟩ := ih h.2
    cases entry with
    | none => simp [subjectPresent] at h
    | some objectT =>
      unfold extractTriples
      cases hs : objectT.rolebinding.Subjects with
      | nil => simp [subjectPresent, hs] at h
      | cons first more => simp [hts]

theorem length_tripleMajor (cs : List String) (ts : List Triple) :
    (tripleMajor cs ts).length = cs.length * ts.length := by
  induction ts with
  | nil => simp [tripleMajor]
  | cons t rest ih =>
    simp only [tripleMajor, List.flatMap_cons, List.length_append, List.length_map,
      List.length_cons] at ih ⊢
    rw [ih, Nat.mul_succ, Nat.add_comm]

theorem getElem?_tripleMajor (cs : List String) (ts : List Triple) (i j : Nat) (t : Triple)
    (c : String) (hj : ts[j]? = some t) (hi : cs[i]? = some c) :
    (tripleMajor cs ts)[j * cs.length + i]? = some (ruleOf t c) := by
  induction ts generalizing j with
  | nil => simp at hj
  | cons t0 rest ih =>
    have hilt : i < cs.length := by
      rcases Nat.lt_or_ge i cs.length with h | h
      · exact h
      · rw [List.getElem?_eq_none h] at hi; cases hi
    simp only [tripleMajor, List.flatMap_cons]
    cases j with
    | zero =>
      simp only [List.getElem?_cons_zero, Option.some.injEq] at hj
      subst hj
      rw [Nat.zero_mul, Nat.zero_add, List.getElem?_append_left (by simpa using hilt)]
      simp [List.getElem?_map, hi]
    | succ k =>
      simp only [List.getElem?_cons_succ] at hj
      have hle : (cs.map (fun mc => ruleOf t0 mc)).length ≤ (k + 1) * cs.length + i := by
        simp only [List.length_map, Nat.succ_mul]; omega
      rw [List.getElem?_append_right hle]
      have hidx : (k + 1) * cs.length + i - (cs.map (fun mc => ruleOf t0 mc)).length
          = k * cs.length + i := by
        simp only [List.length_map, Nat.succ_mul]; omega
      rw [hidx]
      exact ih k hj

/-! ### The loop over the policy templates -/

theorem mem_syncCalls_policyTemplatesLoop (r : PolicyReconciler) (request : Request)
    (cs : List String) (temps : List PolicyTemplate) (q : HttpRequest)
    (hq : q ∈ syncCalls (policyTemplatesLoop r request cs temps).1) :
    ∃ policyT ∈ temps, isConfigurationPolicy policyT = true ∧
      ∃ ts, extractTriples policyT.configPolicy.ObjectTemplates = some ts ∧
        q = upsert (request.Namespace ++ request.Name) (tripleMajor cs ts) := by
  induction temps with
  | nil => simp [policyTemplatesLoop, syncCalls] at hq
  | cons policyT rest ih =>
    unfold policyTemplatesLoop at hq
    split at hq
    · next hcp =>
      rw [objectTemplatesLoop_eq] at hq
      cases hts : extractTriples policyT.configPolicy.ObjectTemplates with
      | none => simp [hts, syncCalls] at hq
      | some ts =>
        simp only [hts, Option.map_some', List.nil_append] at hq
        cases hpost : postAclsToOPA r
            { RuleId := request.Namespace ++ request.Name, Rules := tripleMajor cs ts } with
        | none => simp [hpost, syncCalls] at hq
        | some sent =>
          have hsent := postAclsToOPA_sent r _ sent hpost
          simp only [hpost, syncCalls_http_cons, List.mem_cons, hsent] at hq
          rcases hq with hq | hq
          · exact ⟨policyT, List.mem_cons_self _ _, hcp, ts, hts, hq⟩
          · obtain ⟨p, hp, h⟩ := ih hq
            exact ⟨p, List.mem_cons_of_mem _ hp, h⟩
    · obtain ⟨p, hp, h⟩ := ih hq
      exact ⟨p, List.mem_cons_of_mem _ hp, h⟩

theorem policyTemplatesLoop_present (r : PolicyReconciler) (request : Request)
    (cs : List String) (temps : List PolicyTemplate)
    (hput : r.NewRequest "PUT" (entryURL request) = true)
    (hall : temps.all (fun policyT => !isConfigurationPolicy policyT ||
      policyT.configPolicy.ObjectTemplates.all subjectPresent) = true) :
    policyTemplatesLoop r request cs temps =
      ((temps.filter isConfigurationPolicy).map (fun policyT =>
        Effect.http (upsert (request.Namespace ++ request.Name) (templateRules cs policyT))),
        true) := by
  induction temps with
  | nil => rfl
  | cons policyT rest ih =>
    simp only [List.all_cons, Bool.and_eq_true] at hall
    have ihr := ih hall.2
    unfold policyTemplatesLoop
    cases hcp : isConfigurationPolicy policyT with
    | false => simpa [hcp] using ihr
    | true =>
      have hobjs : policyT.configPolicy.ObjectTemplates.all subjectPresent = true := by
        simpa [hcp] using hall.1
      obtain ⟨ts, hts⟩ := extractTriples_isSome _ hobjs
      obtain ⟨sent, hs, h1⟩ := postAclsToOPA_accepted r
        { RuleId := request.Namespace ++ request.Name, Rules := tripleMajor cs ts } hput
      simp [objectTemplatesLoop_eq, hts, ihr, hs, h1, templateRules, List.filter_cons, hcp]

/-- The loop over the policy templates panics when the PUT request cannot be built
or an object template is nil or without subject, unless the policy has no
ConfigurationPolicy template. -/
theorem policyTemplatesLoop_rejected (r : PolicyReconciler) (request : Request)
    (cs : List String) (temps : List PolicyTemplate)
    (hput : r.NewRequest "PUT" (entryURL request) = false)
    (hsome : (temps.filter isConfigurationPolicy) ≠ []) :
    policyTemplatesLoop r request cs temps = ([], false) := by
  induction temps with
  | nil => exact absurd rfl hsome
  | cons policyT rest ih =>
    unfold policyTemplatesLoop
    cases hcp : isConfigurationPolicy policyT with
    | false =>
      simp only [Bool.false_eq_true, if_false]
      exact ih (by simpa [List.filter_cons, hcp] using hsome)
    | true =>
      simp only [if_true]
      split
      · rfl
      · rw [postAclsToOPA_rejected r _ (by simpa [entryURL] using hput)]

theorem Reconcile_upserts (r : PolicyReconciler) (request : Request) (policy : Policy)
    (cs : List String)
    (hget : r.getPolicy request.Namespace request.Name = .ok policy)
    (hon : enabled policy = true)
    (hres : (getManagedClusters r policy).2 = .ok cs)
    (hput : r.NewRequest "PUT" (entryURL request) = true)
    (hall : everySubjectPresent policy = true) :
    syncCalls (Reconcile r request).1 =
        (configurationPolicies policy).map (fun policyT =>
          upsert (request.Namespace ++ request.Name) (templateRules cs policyT)) ∧
      (Reconcile r request).2 = .returned Result.zero none := by
  have hres2 : getManagedClusters r policy = ((getManagedClusters r policy).1, .ok cs) :=
    Prod.ext rfl hres
  rw [Reconcile_resolved r request policy _ cs hget hon hres2,
    policyTemplatesLoop_present r request cs policy.PolicyTemplates hput hall]
  simp only [syncCalls_getPolicy_cons, syncCalls_append, syncCalls_getManagedClusters,
    List.nil_append, if_true, and_true, configurationPolicies]
  exact syncCalls_map_http _ _

/-- Every sync call of an enabled, resolved reconciliation is the upsert of one
ConfigurationPolicy template, whether or not a later template panics. -/
theorem Reconcile_mem_syncCalls (r : PolicyReconciler) (request : Request) (policy : Policy)
    (cs : List String) (q : HttpRequest)
    (hget : r.getPolicy request.Namespace request.Name = .ok policy)
    (hon : enabled policy = true)
    (hres : (getManagedClusters r policy).2 = .ok cs)
    (hq : q ∈ syncCalls (Reconcile r request).1) :
    ∃ policyT ∈ configurationPolicies policy,
      ∃ ts, extractTriples policyT.configPolicy.ObjectTemplates = some ts ∧
        q = upsert (request.Namespace ++ request.Name) (tripleMajor cs ts) := by
  have hres2 : getManagedClusters r policy = ((getManagedClusters r policy).1, .ok cs) :=
    Prod.ext rfl hres
  rw [Reconcile_resolved r request policy _ cs hget hon hres2] at hq
  simp only [syncCalls_getPolicy_cons, syncCalls_append, syncCalls_getManagedClusters,
    List.nil_append] at hq
  obtain ⟨p, hp, hcp, h⟩ := mem_syncCalls_policyTemplatesLoop r request cs _ q hq
  exact ⟨p, by simp [configurationPolicies, hp, hcp], h⟩

/-! ### The claims on the reconciliation -/

/-- C1: for a Policy that exists (so that the URL of its key is one that
`http.NewRequest` accepts, as it does for the names of Kubernetes objects), is
enabled, has exactly one policy template, that template being a ConfigurationPolicy
with exactly one object template whose role binding has first subject `s`, and whose
cluster resolution gives `cs`, `Reconcile` emits exactly one sync call, the PUT keyed
by namespace followed by name (no separator) carrying one rule per cluster of `cs`
in order, and returns success. -/
theorem C1_single_template_upsert (r : PolicyReconciler) (request : Request) (policy : Policy)
    (policyT : PolicyTemplate) (objectT : ObjectTemplate) (s : RbacSubject)
    (more : List RbacSubject) (cs : List String)
    (hget : r.getPolicy request.Namespace request.Name = .ok policy)
    (hurl : r.NewRequest "PUT"
      ("https://localhost:8181/v1/data/acls/" ++ (request.Namespace ++ request.Name)) = true)
    (hon : enabled policy = true)
    (htemps : policy.PolicyTemplates = [policyT])
    (hkind : isConfigurationPolicy policyT = true)
    (hobjs : policyT.configPolicy.ObjectTemplates = [some objectT])
    (hsubj : objectT.rolebinding.Subjects = s :: more)
    (hres : (getManagedClusters r policy).2 = .ok cs) :
    syncCalls (Reconcile r request).1 =
        [{ Method := "PUT", Key := request.Namespace ++ request.Name,
           Body := cs.map (fun c =>
            { Subject := s.Name, ManagedCluster := c,
              Namespace := objectT.rolebinding.Namespace,
              Role := objectT.rolebinding.RoleRefName }) }] ∧
      (Reconcile r request).2 = .returned { Requeue := false, RequeueAfter := 0 } none := by
  have hall : everySubjectPresent policy = true := by
    simp [everySubjectPresent, htemps, hobjs, subjectPresent, hsubj]
  have h := Reconcile_upserts r request policy cs hget hon hres hurl hall
  refine ⟨?_, h.2⟩
  rw [h.1]
  simp [configurationPolicies, htemps, hkind, templateRules, hobjs, extractTriples, hsubj,
    tripleMajor, upsert, tripleOf, ruleOf]

/-- Scenario A: `default/p1` with alice/viewer/ns1 and clusters `c1`, `c2` gives the
single PUT keyed `defaultp1` with the two rules of alice. -/
theorem C1_scenarioA :
    syncCalls (Reconcile scenarioA requestP1).1 =
        [{ Method := "PUT", Key := "defaultp1",
           Body := [⟨"alice", "c1", "ns1", "viewer"⟩, ⟨"alice", "c2", "ns1", "viewer"⟩] }] ∧
      (Reconcile scenarioA requestP1).2 = .returned { Requeue := false, RequeueAfter := 0 } none :=
  C1_single_template_upsert scenarioA requestP1
    (policyP1 (some "true") [configTemplate [aliceBinding]])
    (configTemplate [aliceBinding]) ⟨aliceBinding⟩ ⟨"alice"⟩ [] ["c1", "c2"]
    rfl (by decide) (by decide) rfl (by decide) rfl rfl rfl

/-- A not-found Policy whose DELETE request can be built: `Reconcile` emits exactly
one sync call, the DELETE keyed by namespace followed by name with an empty rule
list, reads no placement binding and no placement rule, and returns the zero result
with no error, whatever the HTTP client answers. -/
theorem notFound_purges (r : PolicyReconciler) (request : Request) (err : ReadError)
    (hget : r.getPolicy request.Namespace request.Name = .error err)
    (hnf : IsNotFound err = true)
    (hurl : r.NewRequest "DELETE"
      ("https://localhost:8181/v1/data/acls/" ++ (request.Namespace ++ request.Name)) = true) :
    syncCalls (Reconcile r request).1 =
        [{ Method := "DELETE", Key := request.Namespace ++ request.Name, Body := [] }] ∧
      placementReads (Reconcile r request).1 = [] ∧
      (Reconcile r request).2 = .returned { Requeue := false, RequeueAfter := 0 } none := by
  rw [Reconcile_notFound r request err hget hnf hurl]
  simp [syncCalls, placementReads, remove, Result.zero]

/-- Scenario B: the request `default/p1` for a deleted policy gives the DELETE keyed
`defaultp1` with no rules, also when the external store is unreachable. -/
theorem notFound_purges_scenarioB :
    syncCalls (Reconcile scenarioB requestP1).1 =
        [{ Method := "DELETE", Key := "defaultp1", Body := [] }] ∧
      placementReads (Reconcile scenarioB requestP1).1 = [] ∧
      (Reconcile scenarioB requestP1).2 = .returned { Requeue := false, RequeueAfter := 0 } none :=
  notFound_purges scenarioB requestP1 (.notFound "p1") rfl rfl (by decide)

/-- C4: on the request `default/%zz`, whose Policy fetch reports not-found and whose
key makes `http.NewRequest` fail, `Reconcile` does not return success: the nil
request is dereferenced at line 316, before the test of the error at line 318, and
the reconciliation panics with no DELETE sent. -/
theorem C4_unparsable_key_panics :
    scenarioB.getPolicy "default" "%zz" = .error (.notFound "%zz") ∧
      IsNotFound (.notFound "%zz") = true ∧
      scenarioB.NewRequest "DELETE" "https://localhost:8181/v1/data/acls/default%zz" = false ∧
      removeAclsInOPA scenarioB { RuleId := "default%zz", Rules := [] } = none ∧
      Reconcile scenarioB requestUnparsable = ([.getPolicy "default" "%zz"], .panicked) ∧
      (Reconcile scenarioB requestUnparsable).2 ≠
        .returned { Requeue := false, RequeueAfter := 0 } none :=
  ⟨rfl, rfl, by decide, by decide, by decide, by decide⟩

/-- C5: for a Policy that exists and whose opt-in annotation is absent, or does not
parse as a boolean, or parses to false, `Reconcile` emits no sync call, reads no
placement binding and no placement rule, and returns success, whatever the policy
templates and the placement objects are. -/
theorem C5_disabled_no_sync (r : PolicyReconciler) (request : Request) (policy : Policy)
    (hget : r.getPolicy request.Namespace request.Name = .ok policy)
    (hoff : policy.Annotations.lookup processForRbac = none ∨
      ∃ v, policy.Annotations.lookup processForRbac = some v ∧
        (ParseBool v = .error () ∨ ParseBool v = .ok false)) :
    syncCalls (Reconcile r request).1 = [] ∧
      placementReads (Reconcile r request).1 = [] ∧
      (Reconcile r request).2 = .returned { Requeue := false, RequeueAfter := 0 } none := by
  have hdis : enabled policy = false := by
    rcases hoff with h | ⟨v, hv, hp⟩
    · exact enabled_false_of_absent policy h
    · refine enabled_false_of_parse policy v hv ?_
      rcases hp with hp | hp <;> rw [hp] <;> simp
  rw [Reconcile_disabled r request policy hget hdis]
  simp [syncCalls, placementReads, Result.zero]

/-- Scenario C: the annotation value "false" gives no sync call. -/
theorem C5_scenarioC :
    syncCalls (Reconcile scenarioC requestP1).1 = [] ∧
      placementReads (Reconcile scenarioC requestP1).1 = [] ∧
      (Reconcile scenarioC requestP1).2 = .returned { Requeue := false, RequeueAfter := 0 } none :=
  C5_disabled_no_sync scenarioC requestP1
    (policyP1 (some "false") [configTemplate [aliceBinding]]) rfl
    (Or.inr ⟨"false", rfl, Or.inr rfl⟩)

/-- C2, as stated, fails: an enabled Policy with resolved clusters and no policy
template gets no upsert at all, and one with two ConfigurationPolicy templates gets
two upserts, so the number of upserts is not one in either case. -/
theorem C2_upsert_count_differs :
    (enabled (policyP1 (some "true") []) = true ∧
      (getManagedClusters noTemplates (policyP1 (some "true") [])).2 = .ok ["c1"] ∧
      (syncCalls (Reconcile noTemplates requestP1).1).length = 0) ∧
    (enabled (policyP1 (some "true")
        [configTemplate [aliceBinding], configTemplate [bobBinding]]) = true ∧
      (getManagedClusters twoTemplates (policyP1 (some "true")
        [configTemplate [aliceBinding], configTemplate [bobBinding]])).2 = .ok ["c1"] ∧
      syncCalls (Reconcile twoTemplates requestP1).1 =
        [{ Method := "PUT", Key := "defaultp1", Body := [⟨"alice", "c1", "ns1", "viewer"⟩] },
         { Method := "PUT", Key := "defaultp1", Body := [⟨"bob", "c1", "ns2", "editor"⟩] }]) :=
  ⟨⟨by decide, rfl, by decide⟩, ⟨by decide, rfl, by decide⟩⟩

/-- C2, amended: for an enabled Policy whose cluster resolution succeeds, the URL of
whose key is one that `http.NewRequest` accepts, and whose object templates are all
non-null with a role binding that has a subject, `Reconcile` calls upsert once for
each ConfigurationPolicy template among its policy templates, each call a PUT under
the key of the Policy: no call when there is none, `k` calls when there are `k`; and
it returns success. -/
theorem C2_one_upsert_per_template (r : PolicyReconciler) (request : Request)
    (policy : Policy) (cs : List String)
    (hget : r.getPolicy request.Namespace request.Name = .ok policy)
    (hon : enabled policy = true)
    (hres : (getManagedClusters r policy).2 = .ok cs)
    (hurl : r.NewRequest "PUT"
      ("https://localhost:8181/v1/data/acls/" ++ (request.Namespace ++ request.Name)) = true)
    (hall : everySubjectPresent policy = true) :
    (syncCalls (Reconcile r request).1).length =
        (policy.PolicyTemplates.filter isConfigurationPolicy).length ∧
      (∀ q ∈ syncCalls (Reconcile r request).1,
        q.Method = "PUT" ∧ q.Key = request.Namespace ++ request.Name) ∧
      (Reconcile r request).2 = .returned { Requeue := false, RequeueAfter := 0 } none := by
  have h := Reconcile_upserts r request policy cs hget hon hres hurl hall
  refine ⟨?_, ?_, h.2⟩
  · rw [h.1]; simp [configurationPolicies]
  · intro q hq
    rw [h.1] at hq
    obtain ⟨p, _, hp⟩ := List.mem_map.1 hq
    subst hp
    exact ⟨rfl, rfl⟩

/-- The policy with two ConfigurationPolicy templates gets two upserts. -/
theorem C2_two_templates :
    (syncCalls (Reconcile twoTemplates requestP1).1).length = 2 ∧
      (∀ q ∈ syncCalls (Reconcile twoTemplates requestP1).1,
        q.Method = "PUT" ∧ q.Key = "defaultp1") ∧
      (Reconcile twoTemplates requestP1).2 =
        .returned { Requeue := false, RequeueAfter := 0 } none :=
  C2_one_upsert_per_template twoTemplates requestP1
    (policyP1 (some "true") [configTemplate [aliceBinding], configTemplate [bobBinding]])
    ["c1"] rfl (by decide) rfl (by decide) (by decide)

/-- C9, as stated, fails: with one resolved cluster and two ConfigurationPolicy
templates of one role binding each, two triples are extracted across the templates,
and an upsert is issued that does not carry `1 * 2` rules. -/
theorem C9_length_not_total :
    enabled (policyP1 (some "true")
        [configTemplate [aliceBinding], configTemplate [bobBinding]]) = true ∧
      (getManagedClusters twoTemplates (policyP1 (some "true")
        [configTemplate [aliceBinding], configTemplate [bobBinding]])).2 = .ok ["c1"] ∧
      ((configurationPolicies (policyP1 (some "true")
        [configTemplate [aliceBinding], configTemplate [bobBinding]])).map
          (fun policyT => policyT.configPolicy.ObjectTemplates.length)).sum = 2 ∧
      ∃ q ∈ syncCalls (Reconcile twoTemplates requestP1).1,
        q.Method = "PUT" ∧ q.Body.length = 1 ∧ q.Body.length ≠ ["c1"].length * 2 :=
  ⟨by decide, rfl, by decide,
    ⟨{ Method := "PUT", Key := "defaultp1", Body := [⟨"alice", "c1", "ns1", "viewer"⟩] },
      by decide, rfl, rfl, by decide⟩⟩

/-- C9, amended: for an enabled Policy whose cluster resolution gives `cs`, every
upsert that `Reconcile` issues is that of one ConfigurationPolicy template of the
Policy and carries a rule list of length `len(cs)` times the number of object
templates of that template; the product is zero exactly when `cs` is empty or the
template has no object template. -/
theorem C9_upsert_length_per_template (r : PolicyReconciler) (request : Request)
    (policy : Policy) (cs : List String) (q : HttpRequest)
    (hget : r.getPolicy request.Namespace request.Name = .ok policy)
    (hon : enabled policy = true)
    (hres : (getManagedClusters r policy).2 = .ok cs)
    (hq : q ∈ syncCalls (Reconcile r request).1) :
    q.Method = "PUT" ∧
      ∃ policyT ∈ policy.PolicyTemplates.filter isConfigurationPolicy,
        q.Body.length = cs.length * policyT.configPolicy.ObjectTemplates.length ∧
        (q.Body.length = 0 ↔ cs = [] ∨ policyT.configPolicy.ObjectTemplates = []) := by
  obtain ⟨p, hp, ts, hts, hqe⟩ := Reconcile_mem_syncCalls r request policy cs q hget hon hres hq
  subst hqe
  have hlen : (tripleMajor cs ts).length = cs.length * p.configPolicy.ObjectTemplates.length := by
    rw [length_tripleMajor, extractTriples_length _ _ hts]
  refine ⟨rfl, p, hp, hlen, ?_⟩
  show (tripleMajor cs ts).length = 0 ↔ _
  rw [hlen, Nat.mul_eq_zero, List.length_eq_zero, List.length_eq_zero]

/-- The first upsert of the policy with two ConfigurationPolicy templates carries
one rule: one cluster times the one object template of its template. -/
theorem C9_two_templates :
    (⟨"PUT", "defaultp1", [⟨"alice", "c1", "ns1", "viewer"⟩]⟩ : HttpRequest).Method = "PUT" ∧
      ∃ policyT ∈ (policyP1 (some "true")
          [configTemplate [aliceBinding], configTemplate [bobBinding]]).PolicyTemplates.filter
            isConfigurationPolicy,
        (⟨"PUT", "defaultp1", [⟨"alice", "c1", "ns1", "viewer"⟩]⟩ : HttpRequest).Body.length
            = ["c1"].length * policyT.configPolicy.ObjectTemplates.length ∧
        ((⟨"PUT", "defaultp1", [⟨"alice", "c1", "ns1", "viewer"⟩]⟩ : HttpRequest).Body.length
            = 0 ↔ ["c1"] = [] ∨ policyT.configPolicy.ObjectTemplates = []) :=
  C9_upsert_length_per_template twoTemplates requestP1
    (policyP1 (some "true") [configTemplate [aliceBinding], configTemplate [bobBinding]])
    ["c1"] ⟨"PUT", "defaultp1", [⟨"alice", "c1", "ns1", "viewer"⟩]⟩ rfl (by decide) rfl
    (by decide)

/-- C10, as stated, fails: with clusters `c1`, `c2` and the triples of alice and bob
in one ConfigurationPolicy template, the rule pushed at position `0 * 2 + 1` is not
the rule of the second triple on the first cluster; it is that of the first triple
on the second cluster. -/
theorem C10_not_cluster_major :
    enabled (policyP1 (some "true") [configTemplate [aliceBinding, bobBinding]]) = true ∧
      (getManagedClusters twoBindings
        (policyP1 (some "true") [configTemplate [aliceBinding, bobBinding]])).2
          = .ok ["c1", "c2"] ∧
      extractTriples [some ⟨aliceBinding⟩, some ⟨bobBinding⟩]
          = some [⟨"alice", "viewer", "ns1"⟩, ⟨"bob", "editor", "ns2"⟩] ∧
      ∃ q ∈ syncCalls (Reconcile twoBindings requestP1).1,
        q.Method = "PUT" ∧
        q.Body[0 * 2 + 1]? = some ⟨"alice", "c2", "ns1", "viewer"⟩ ∧
        q.Body[0 * 2 + 1]? ≠ some ⟨"bob", "c1", "ns2", "editor"⟩ ∧
        q.Body ≠ clusterMajor ["c1", "c2"]
          [⟨"alice", "viewer", "ns1"⟩, ⟨"bob", "editor", "ns2"⟩] :=
  ⟨by decide, rfl, by decide,
    ⟨{ Method := "PUT", Key := "defaultp1",
       Body := [⟨"alice", "c1", "ns1", "viewer"⟩, ⟨"alice", "c2", "ns1", "viewer"⟩,
         ⟨"bob", "c1", "ns2", "editor"⟩, ⟨"bob", "c2", "ns2", "editor"⟩] },
      by decide, rfl, by decide, by decide, by decide⟩⟩

/-- C10, amended: for an enabled Policy with resolved cluster list `cs`, every
upsert that `Reconcile` issues is that of one ConfigurationPolicy template, and with
`ts` the triples of that template in object-template order its rule list is the
Cartesian product in triple-major order: it has `len(cs) * len(ts)` rules and the
rule at position `j * len(cs) + i` is the rule of `ts[j]` on `cs[i]`, so all rules
of the first triple precede all rules of the second triple. -/
theorem C10_triple_major_order (r : PolicyReconciler) (request : Request)
    (policy : Policy) (cs : List String) (q : HttpRequest)
    (hget : r.getPolicy request.Namespace request.Name = .ok policy)
    (hon : enabled policy = true)
    (hres : (getManagedClusters r policy).2 = .ok cs)
    (hq : q ∈ syncCalls (Reconcile r request).1) :
    ∃ policyT ∈ policy.PolicyTemplates.filter isConfigurationPolicy,
      ∃ ts, extractTriples policyT.configPolicy.ObjectTemplates = some ts ∧
        q.Body.length = cs.length * ts.length ∧
        ∀ (i j : Nat) (c : String) (t : Triple), cs[i]? = some c → ts[j]? = some t →
          q.Body[j * cs.length + i]? =
            some { Subject := t.Subject, ManagedCluster := c, Namespace := t.Namespace,
                   Role := t.Role } := by
  obtain ⟨p, hp, ts, hts, hqe⟩ := Reconcile_mem_syncCalls r request policy cs q hget hon hres hq
  subst hqe
  refine ⟨p, hp, ts, hts, length_tripleMajor cs ts, ?_⟩
  intro i j c t hi hj
  exact getElem?_tripleMajor cs ts i j t c hj hi

/-- The upsert of the policy with the triples of alice and bob on `c1`, `c2` is in
triple-major order. -/
theorem C10_two_bindings :
    ∃ policyT ∈ (policyP1 (some "true")
        [configTemplate [aliceBinding, bobBinding]]).PolicyTemplates.filter
          isConfigurationPolicy,
      ∃ ts, extractTriples policyT.configPolicy.ObjectTemplates = some ts ∧
        (upsert "defaultp1" [⟨"alice", "c1", "ns1", "viewer"⟩, ⟨"alice", "c2", "ns1", "viewer"⟩,
          ⟨"bob", "c1", "ns2", "editor"⟩, ⟨"bob", "c2", "ns2", "editor"⟩]).Body.length
            = ["c1", "c2"].length * ts.length ∧
        ∀ (i j : Nat) (c : String) (t : Triple), ["c1", "c2"][i]? = some c → ts[j]? = some t →
          (upsert "defaultp1" [⟨"alice", "c1", "ns1", "viewer"⟩,
            ⟨"alice", "c2", "ns1", "viewer"⟩, ⟨"bob", "c1", "ns2", "editor"⟩,
            ⟨"bob", "c2", "ns2", "editor"⟩]).Body[j * ["c1", "c2"].length + i]? =
            some { Subject := t.Subject, ManagedCluster := c, Namespace := t.Namespace,
                   Role := t.Role } :=
  C10_triple_major_order twoBindings requestP1
    (policyP1 (some "true") [configTemplate [aliceBinding, bobBinding]]) ["c1", "c2"]
    (upsert "defaultp1" [⟨"alice", "c1", "ns1", "viewer"⟩, ⟨"alice", "c2", "ns1", "viewer"⟩,
      ⟨"bob", "c1", "ns2", "editor"⟩, ⟨"bob", "c2", "ns2", "editor"⟩])
    rfl (by decide) rfl (by decide)

/-- C7: on an enabled policy with one resolved cluster whose only object template
embeds a document that does not parse as a role binding, every read succeeds and
`Reconcile` panics at the first-subject lookup: no upsert is issued and nothing is
returned. -/
theorem C7_malformed_binding_panics :
    enabled (policyP1 (some "true") [configTemplate [zeroBinding]]) = true ∧
      (getManagedClusters malformedBinding
        (policyP1 (some "true") [configTemplate [zeroBinding]])).2 = .ok ["c1"] ∧
      objectTemplatesLoop ["c1"] [some ⟨zeroBinding⟩] [] = none ∧
      Reconcile malformedBinding requestP1 =
        ([.getPolicy "default" "p1", .listPlacementBindings "default",
          .getPlacementRule "default" "r1"], .panicked) :=
  ⟨by decide, rfl, by decide, by decide⟩

/-- C6: on an enabled policy with one resolved cluster whose only object template
embeds a role binding with an empty subject list, the Policy fetch, the list of the
placement bindings and the fetch of the placement rule all succeed, and `Reconcile`
does not return success: it panics. -/
theorem C6_no_read_fails_yet_no_success :
    subjectlessBinding.getPolicy "default" "p1" = .ok (policyP1 (some "true")
        [configTemplate [{ Subjects := [], RoleRefName := "viewer", Namespace := "ns1" }]]) ∧
      subjectlessBinding.listPlacementBindings "default" = .ok [bindingTo "r1" 1] ∧
      subjectlessBinding.getPlacementRule "default" "r1" = .ok { Decisions := [⟨"c1"⟩] } ∧
      (Reconcile subjectlessBinding requestP1).1 =
        [.getPolicy "default" "p1", .listPlacementBindings "default",
          .getPlacementRule "default" "r1"] ∧
      (Reconcile subjectlessBinding requestP1).2 = .panicked ∧
      (Reconcile subjectlessBinding requestP1).2 ≠
        .returned { Requeue := false, RequeueAfter := 0 } none :=
  ⟨rfl, rfl, rfl, by decide, by decide, by decide⟩

/-! ### Placement resolution -/

theorem subjectsLoop_result (r : PolicyReconciler) (policy : Policy) (pb : PlacementBinding)
    (rule : String → PlacementRule) (subjects : List Subject) (acc : List String)
    (hrule : subjects.any (subjectMatches policy) = true → refersToPlacementRule pb = true →
      r.getPlacementRule policy.Namespace pb.PlacementRef.Name
        = .ok (rule pb.PlacementRef.Name)) :
    (subjectsLoop r policy pb subjects acc).2 =
      .ok (acc ++ (subjects.filter (subjectMatches policy)).flatMap (fun _ =>
        if refersToPlacementRule pb then clusterNames (rule pb.PlacementRef.Name) else [])) := by
  induction subjects generalizing acc with
  | nil => simp [subjectsLoop]
  | cons subject rest ih =>
    unfold subjectsLoop
    cases hm : subjectMatches policy subject with
    | false =>
      have hrest : rest.any (subjectMatches policy) = true → refersToPlacementRule pb = true →
          r.getPlacementRule policy.Namespace pb.PlacementRef.Name
            = .ok (rule pb.PlacementRef.Name) := by
        intro h1 h2
        exact hrule (by simp [List.any_cons, h1]) h2
      simpa [hm] using ih acc hrest
    | true =>
      cases hr : refersToPlacementRule pb with
      | false =>
        have hrest : rest.any (subjectMatches policy) = true →
            refersToPlacementRule pb = true →
            r.getPlacementRule policy.Namespace pb.PlacementRef.Name
              = .ok (rule pb.PlacementRef.Name) := by
          intro _ h2
          rw [hr] at h2
          cases h2
        have := ih acc hrest
        simp only [hr] at this
        simpa [hm, hr] using this
      | true =>
        have hg := hrule (by simp [List.any_cons, hm]) hr
        have := ih (acc ++ clusterNames (rule pb.PlacementRef.Name)) (fun _ _ => hg)
        simp only [hr, if_true, clusterNames, List.append_assoc] at this
        simp only [hm, hr, hg, Bool.not_true, Bool.false_eq_true, if_false, if_true,
          List.filter_cons_of_pos, List.flatMap_cons, clusterNames]
        exact this

theorem bindingsLoop_result (r : PolicyReconciler) (policy : Policy)
    (rule : String → PlacementRule) (pbs : List PlacementBinding) (acc : List String)
    (hrule : ∀ pb ∈ pbs, bindsPolicy policy pb = true → refersToPlacementRule pb = true →
      r.getPlacementRule policy.Namespace pb.PlacementRef.Name
        = .ok (rule pb.PlacementRef.Name)) :
    (bindingsLoop r policy pbs acc).2 = .ok (acc ++ clustersPerSubject policy pbs rule) := by
  induction pbs generalizing acc with
  | nil => simp [bindingsLoop, clustersPerSubject]
  | cons pb rest ih =>
    have hs := subjectsLoop_result r policy pb rule pb.Subjects acc
      (hrule pb (List.mem_cons_self _ _))
    have hrest : ∀ pb2 ∈ rest, bindsPolicy policy pb2 = true →
        refersToPlacementRule pb2 = true →
        r.getPlacementRule policy.Namespace pb2.PlacementRef.Name
          = .ok (rule pb2.PlacementRef.Name) :=
      fun pb2 h => hrule pb2 (List.mem_cons_of_mem _ h)
    unfold bindingsLoop
    split
    · next t err heq => rw [heq] at hs; cases hs
    · next t acc2 heq =>
      rw [heq] at hs
      simp only [Except.ok.injEq] at hs
      subst hs
      simp only [ih _ hrest, clustersPerSubject, List.flatMap_cons, List.append_assoc]

theorem clustersPerSubject_eq_perBinding (policy : Policy) (pbs : List PlacementBinding)
    (rule : String → PlacementRule)
    (hone : ∀ pb ∈ pbs, (pb.Subjects.filter (subjectMatches policy)).length ≤ 1) :
    clustersPerSubject policy pbs rule = clustersPerBinding policy pbs rule := by
  induction pbs with
  | nil => rfl
  | cons pb rest ih =>
    have ihr := ih (fun pb2 h => hone pb2 (List.mem_cons_of_mem _ h))
    have h1 := hone pb (List.mem_cons_self _ _)
    simp only [clustersPerSubject, clustersPerBinding, List.flatMap_cons] at ihr ⊢
    rw [ihr]
    cases hf : pb.Subjects.filter (subjectMatches policy) with
    | nil =>
      have hb : bindsPolicy policy pb = false := by
        rw [List.filter_eq_nil_iff] at hf
        simp only [bindsPolicy, List.any_eq_false]
        intro x hx
        exact hf x hx
      simp [List.filter_cons, hb]
    | cons x more =>
      rw [hf] at h1
      have hmore : more = [] := by
        cases more with
        | nil => rfl
        | cons y ys => simp at h1
      subst hmore
      have hx : x ∈ pb.Subjects.filter (subjectMatches policy) := by simp [hf]
      have hb : bindsPolicy policy pb = true := by
        simp only [bindsPolicy, List.any_eq_true]
        exact ⟨x, (List.mem_filter.1 hx).1, (List.mem_filter.1 hx).2⟩
      cases hr : refersToPlacementRule pb <;> simp [List.filter_cons, hb, hr]

/-- C8, as stated, fails: every read succeeds and one binding names the policy in
two of its subjects; the rule of that binding decides `c1`, and the resolver returns
`c1` twice, where one contribution per binding gives it once. -/
theorem C8_binding_contributes_per_subject :
    doubleSubject.listPlacementBindings "default" = .ok [bindingTo "r1" 2] ∧
      doubleSubject.getPlacementRule "default" "r1" = .ok { Decisions := [⟨"c1"⟩] } ∧
      (getManagedClusters doubleSubject
        (policyP1 (some "true") [configTemplate [aliceBinding]])).2 = .ok ["c1", "c1"] ∧
      clustersPerBinding (policyP1 (some "true") [configTemplate [aliceBinding]])
        [bindingTo "r1" 2] (fun _ => { Decisions := [⟨"c1"⟩] }) = ["c1"] :=
  ⟨rfl, rfl, rfl, by decide⟩

/-- C8, amended: when the list of the placement bindings succeeds and so does the
fetch of every placement rule referenced by a binding that binds the policy,
`getManagedClusters` returns the concatenation, over the bindings in list order and
over the subjects of each binding that name the policy, of the cluster names of the
decisions of the referenced placement rule in list order, when the placement
reference has the placement-rule group and kind: a binding contributes the decisions
of its rule once for each of its subjects that names the policy, other bindings
contribute nothing, and nothing is deduplicated.  When no binding names the policy in
more than one subject, this is one contribution per matching binding. -/
theorem C8_clusters_per_matching_subject (r : PolicyReconciler) (policy : Policy)
    (pbs : List PlacementBinding) (rule : String → PlacementRule)
    (hlist : r.listPlacementBindings policy.Namespace = .ok pbs)
    (hrules : ∀ pb ∈ pbs, bindsPolicy policy pb = true → refersToPlacementRule pb = true →
      r.getPlacementRule policy.Namespace pb.PlacementRef.Name
        = .ok (rule pb.PlacementRef.Name)) :
    (getManagedClusters r policy).2 = .ok (clustersPerSubject policy pbs rule) ∧
      ((∀ pb ∈ pbs, (pb.Subjects.filter (subjectMatches policy)).length ≤ 1) →
        (getManagedClusters r policy).2 = .ok (clustersPerBinding policy pbs rule)) := by
  have h : (getManagedClusters r policy).2 = .ok (clustersPerSubject policy pbs rule) := by
    simp only [getManagedClusters, hlist]
    simpa using bindingsLoop_result r policy rule pbs [] hrules
  exact ⟨h, fun hone => by rw [h, clustersPerSubject_eq_perBinding policy pbs rule hone]⟩

/-- Scenario E: two bindings of the policy to rules that both decide `c1` give
`c1` twice, which here is also one contribution per matching binding. -/
theorem C8_scenarioE :
    (getManagedClusters scenarioE
        (policyP1 (some "true") [configTemplate [aliceBinding]])).2 = .ok ["c1", "c1"] ∧
      (getManagedClusters scenarioE
        (policyP1 (some "true") [configTemplate [aliceBinding]])).2 =
          .ok (clustersPerBinding (policyP1 (some "true") [configTemplate [aliceBinding]])
            [bindingTo "r1" 1, bindingTo "r2" 1] (fun _ => { Decisions := [⟨"c1"⟩] })) :=
  have h := C8_clusters_per_matching_subject scenarioE
    (policyP1 (some "true") [configTemplate [aliceBinding]])
    [bindingTo "r1" 1, bindingTo "r2" 1] (fun _ => { Decisions := [⟨"c1"⟩] }) rfl
    (by
      intro pb hpb _ _
      simp only [List.mem_cons, List.mem_singleton, List.not_mem_nil, or_false] at hpb
      rcases hpb with h | h <;> subst h <;> rfl)
  ⟨h.1, h.2 (by decide)⟩

/-! ### The external store -/

theorem reconcileAll_append (request : Request) (s : Store) (rs : List PolicyReconciler)
    (r : PolicyReconciler) :
    reconcileAll request s (rs ++ [r]) =
      Store.run (reconcileAll request s rs) (Reconcile r request).1 := by
  induction rs generalizing s with
  | nil => rfl
  | cons r0 rest ih =>
    show reconcileAll request (Store.run s (Reconcile r0 request).1) (rest ++ [r]) = _
    rw [ih]
    rfl

theorem Store.holds_apply_upsert (s : Store) (key : String) (rules : List aclrule) :
    (s.apply (upsert key rules)).holds key = true := by
  simp [Store.apply, upsert, Store.put, Store.holds]

theorem Store.holds_apply_remove (s : Store) (key : String) (rules : List aclrule) :
    (s.apply (remove key rules)).holds key = false := by
  have h : ¬ ("DELETE" = "PUT") := by decide
  simp [Store.apply, remove, Store.erase, Store.holds, h]

theorem Store.holds_foldl_upserts {α : Type} (key : String) (f : α → List aclrule)
    (l : List α) (s : Store) :
    ((l.map (fun x => upsert key (f x))).foldl Store.apply s).holds key =
      (!l.isEmpty || s.holds key) := by
  induction l generalizing s with
  | nil => simp
  | cons x rest ih =>
    simp only [List.map_cons, List.foldl_cons, ih, Store.holds_apply_upsert, Bool.or_true,
      List.isEmpty_cons, Bool.not_false, Bool.true_or]

/-- C3, as stated, fails in both directions: an entry pushed while the annotation
was "true" is still present after a `Reconcile` that sees the annotation "false";
an annotation "1" gets an entry pushed; and a Policy with the annotation "true"
gets no entry when it has no ConfigurationPolicy template or when its placement rule
cannot be read. -/
theorem C3_entry_not_iff_annotated_true :
    (annotatedTrue scenarioA requestP1 = true ∧ annotatedTrue scenarioC requestP1 = false ∧
      (reconcileAll requestP1 Store.empty [scenarioA]).holds "defaultp1" = true ∧
      (reconcileAll requestP1 Store.empty [scenarioA, scenarioC]).holds "defaultp1" = true) ∧
    (annotatedTrue annotatedOne requestP1 = false ∧
      (reconcileAll requestP1 Store.empty [annotatedOne]).holds "defaultp1" = true) ∧
    (annotatedTrue noTemplates requestP1 = true ∧
      (reconcileAll requestP1 Store.empty [noTemplates]).holds "defaultp1" = false) ∧
    (annotatedTrue missingRule requestP1 = true ∧
      (reconcileAll requestP1 Store.empty [missingRule]).holds "defaultp1" = false) :=
  ⟨⟨by decide, by decide, by decide, by decide⟩, ⟨by decide, by decide⟩,
    ⟨by decide, by decide⟩, ⟨by decide, by decide⟩⟩

/-- C3, amended: with the store a map from key to rule list, PUT as insert or
replace, DELETE as erase and every sync call succeeding, starting from the empty
store, for every sequence of object-store states each followed by a `Reconcile` of
the request, where for the last state the PUT and DELETE requests on the URL of the
key are ones that `http.NewRequest` accepts and the object templates are all
non-null with a role binding that has a subject: after the last `Reconcile` the
store holds an entry under the key (namespace followed by name) if and only if that
`Reconcile` pushed one (the Policy exists, its annotation parses to true, its
cluster resolution succeeds and it has a ConfigurationPolicy template), or the
Policy fetch was not reported not-found and the store held the entry before.  In
particular an entry pushed while the annotation was true is still present after a
`Reconcile` that sees the annotation absent or "false", and is removed only by a
`Reconcile` that finds the Policy deleted. -/
theorem C3_entry_after_reconcile (request : Request) (rs : List PolicyReconciler)
    (r : PolicyReconciler)
    (hput : r.NewRequest "PUT"
      ("https://localhost:8181/v1/data/acls/" ++ (request.Namespace ++ request.Name)) = true)
    (hdel : r.NewRequest "DELETE"
      ("https://localhost:8181/v1/data/acls/" ++ (request.Namespace ++ request.Name)) = true)
    (hall : ∀ policy, r.getPolicy request.Namespace request.Name = .ok policy →
      everySubjectPresent policy = true) :
    (reconcileAll request Store.empty (rs ++ [r])).holds (request.Namespace ++ request.Name) =
      (pushesEntry r request ||
        (!policyNotFound r request &&
          (reconcileAll request Store.empty rs).holds (request.Namespace ++ request.Name))) := by
  rw [reconcileAll_append]
  generalize reconcileAll request Store.empty rs = before
  cases hget : r.getPolicy request.Namespace request.Name with
  | error err =>
    cases hnf : IsNotFound err with
    | true =>
      rw [Reconcile_notFound r request err hget hnf hdel]
      simp [pushesEntry, policyNotFound, hget, hnf, Store.run, syncCalls,
        Store.holds_apply_remove]
    | false =>
      rw [Reconcile_getFailed r request err hget hnf]
      simp [pushesEntry, policyNotFound, hget, hnf, Store.run, syncCalls]
  | ok policy =>
    cases hon : enabled policy with
    | false =>
      rw [Reconcile_disabled r request policy hget hon]
      simp [pushesEntry, policyNotFound, hget, hon, Store.run, syncCalls]
    | true =>
      cases hres : (getManagedClusters r policy).2 with
      | error err =>
        have hres2 : getManagedClusters r policy = ((getManagedClusters r policy).1, .error err) :=
          Prod.ext rfl hres
        rw [Reconcile_resolveFailed r request policy _ err hget hon hres2]
        simp [pushesEntry, policyNotFound, hget, hon, hres, Store.run,
          syncCalls_getPolicy_cons, syncCalls_getManagedClusters]
      | ok cs =>
        have h := (Reconcile_upserts r request policy cs hget hon hres hput
          (hall policy hget)).1
        simp only [Store.run, h, Store.holds_foldl_upserts]
        simp [pushesEntry, policyNotFound, hget, hon, hres]

/-- After scenario A and then scenario C the store still holds the entry of
`default/p1`: scenario C pushes nothing and is not a deletion. -/
theorem C3_scenarioA_then_C :
    (reconcileAll requestP1 Store.empty ([scenarioA] ++ [scenarioC])).holds
        (requestP1.Namespace ++ requestP1.Name) =
      (pushesEntry scenarioC requestP1 ||
        (!policyNotFound scenarioC requestP1 &&
          (reconcileAll requestP1 Store.empty [scenarioA]).holds
            (requestP1.Namespace ++ requestP1.Name))) :=
  C3_entry_after_reconcile requestP1 [scenarioA] scenarioC (by decide) (by decide) (by
    intro policy h
    have h2 : policy = policyP1 (some "false") [configTemplate [aliceBinding]] :=
      (Except.ok.inj h).symm
    subst h2
    decide)

/-! ### Which reconciliations return an error -/

/-- The resolver fails at the first subject that names the policy when the placement
reference is a placement rule whose fetch fails. -/
theorem subjectsLoop_error (r : PolicyReconciler) (policy : Policy) (pb : PlacementBinding)
    (e : ReadError) (subjects : List Subject) (acc : List String)
    (hany : subjects.any (subjectMatches policy) = true)
    (href : refersToPlacementRule pb = true)
    (hfail : r.getPlacementRule policy.Namespace pb.PlacementRef.Name = .error e) :
    (subjectsLoop r policy pb subjects acc).2 = .error e := by
  induction subjects generalizing acc with
  | nil => simp at hany
  | cons subject rest ih =>
    unfold subjectsLoop
    cases hm : subjectMatches policy subject with
    | false =>
      have hrest : rest.any (subjectMatches policy) = true := by
        simpa [List.any_cons, hm] using hany
      simpa [hm] using ih acc hrest
    | true => simp [hm, href, hfail]

theorem bindingsLoop_error (r : PolicyReconciler) (policy : Policy)
    (pbs : List PlacementBinding) (acc : List String)
    (hfail : ∃ pb ∈ pbs, bindsPolicy policy pb = true ∧ refersToPlacementRule pb = true ∧
      ∃ e, r.getPlacementRule policy.Namespace pb.PlacementRef.Name = .error e) :
    ∃ e, (bindingsLoop r policy pbs acc).2 = .error e := by
  induction pbs generalizing acc with
  | nil =>
    obtain ⟨pb, hpb, _⟩ := hfail
    cases hpb
  | cons pb rest ih =>
    unfold bindingsLoop
    split
    · next t err heq => exact ⟨err, rfl⟩
    · next t acc2 heq =>
      obtain ⟨pb2, hpb2, hb, hr, e, he⟩ := hfail
      rcases List.mem_cons.1 hpb2 with h | h
      · subst h
        have := subjectsLoop_error r policy pb2 e pb2.Subjects acc hb hr he
        rw [heq] at this
        cases this
      · exact ih acc2 ⟨pb2, h, hb, hr, e, he⟩

/-- The resolver fails exactly when the list of the placement bindings fails or the
fetch of a placement rule referenced by a binding that binds the policy fails. -/
theorem getManagedClusters_error_iff (r : PolicyReconciler) (policy : Policy) :
    (∃ e, (getManagedClusters r policy).2 = .error e) ↔
      (∃ e, r.listPlacementBindings policy.Namespace = .error e) ∨
      ∃ pbs, r.listPlacementBindings policy.Namespace = .ok pbs ∧
        ∃ pb ∈ pbs, bindsPolicy policy pb = true ∧ refersToPlacementRule pb = true ∧
          ∃ e, r.getPlacementRule policy.Namespace pb.PlacementRef.Name = .error e := by
  cases hlist : r.listPlacementBindings policy.Namespace with
  | error e0 =>
    simp only [getManagedClusters, hlist]
    exact ⟨fun _ => Or.inl ⟨e0, rfl⟩, fun _ => ⟨e0, rfl⟩⟩
  | ok pbs =>
    simp only [getManagedClusters, hlist]
    constructor
    · intro herr
      refine Or.inr ⟨pbs, rfl, ?_⟩
      by_contra hno
      have hrules : ∀ pb ∈ pbs, bindsPolicy policy pb = true →
          refersToPlacementRule pb = true →
          r.getPlacementRule policy.Namespace pb.PlacementRef.Name = .ok
            (fetchedRule r policy.Namespace pb.PlacementRef.Name) := by
        intro pb hpb hb hr
        cases hg : r.getPlacementRule policy.Namespace pb.PlacementRef.Name with
        | ok plr => simp [fetchedRule, hg]
        | error e => exact absurd ⟨pb, hpb, hb, hr, e, hg⟩ hno
      have := bindingsLoop_result r policy (fetchedRule r policy.Namespace) pbs [] hrules
      obtain ⟨e, he⟩ := herr
      rw [this] at he
      cases he
    · intro hfail
      rcases hfail with ⟨e, he⟩ | ⟨pbs2, hp, hfail⟩
      · cases he
      · cases hp
        exact bindingsLoop_error r policy pbs [] hfail

/-- The error that `Reconcile` returns is the error of the Policy fetch, when it is
not a not-found, or the error of the cluster resolution of an enabled Policy; no
sync call makes it return an error. -/
theorem Reconcile_error_iff (r : PolicyReconciler) (request : Request) (e : ReadError) :
    (Reconcile r request).2 = .returned Result.zero (some e) ↔
      (r.getPolicy request.Namespace request.Name = .error e ∧ IsNotFound e = false) ∨
      ∃ policy, r.getPolicy request.Namespace request.Name = .ok policy ∧
        enabled policy = true ∧ (getManagedClusters r policy).2 = .error e := by
  cases hget : r.getPolicy request.Namespace request.Name with
  | error err =>
    have hright : ¬ ∃ policy, (Except.error err : Except ReadError Policy) = .ok policy ∧
        enabled policy = true ∧ (getManagedClusters r policy).2 = .error e := by
      rintro ⟨_, h, _⟩; cases h
    cases hnf : IsNotFound err with
    | true =>
      have hno : (Reconcile r request).2 ≠ .returned Result.zero (some e) := by
        cases hdel : r.NewRequest "DELETE" (entryURL request) with
        | true =>
          rw [Reconcile_notFound r request err hget hnf hdel]
          intro h; cases h
        | false =>
          rw [Reconcile_notFound_rejected r request err hget hnf hdel]
          intro h; cases h
      constructor
      · intro h; exact absurd h hno
      · rintro (⟨h, h2⟩ | h)
        · cases h; rw [hnf] at h2; cases h2
        · exact absurd h hright
    | false =>
      rw [Reconcile_getFailed r request err hget hnf]
      constructor
      · intro h; cases h; exact Or.inl ⟨rfl, hnf⟩
      · rintro (⟨h, _⟩ | h)
        · cases h; rfl
        · exact absurd h hright
  | ok policy =>
    have hleft : ¬ ((Except.ok policy : Except ReadError Policy) = .error e ∧
        IsNotFound e = false) := by
      rintro ⟨h, _⟩; cases h
    cases hon : enabled policy with
    | false =>
      rw [Reconcile_disabled r request policy hget hon]
      constructor
      · intro h; cases h
      · rintro (h | ⟨p, hp, hen, _⟩)
        · exact absurd h hleft
        · cases hp; rw [hon] at hen; cases hen
    | true =>
      cases hres : (getManagedClusters r policy).2 with
      | error err =>
        have hres2 : getManagedClusters r policy = ((getManagedClusters r policy).1, .error err) :=
          Prod.ext rfl hres
        rw [Reconcile_resolveFailed r request policy _ err hget hon hres2]
        constructor
        · intro h; cases h; exact Or.inr ⟨policy, rfl, hon, hres⟩
        · rintro (h | ⟨p, hp, _, hr⟩)
          · exact absurd h hleft
          · cases hp; rw [hres] at hr; cases hr; rfl
      | ok cs =>
        have hres2 : getManagedClusters r policy = ((getManagedClusters r policy).1, .ok cs) :=
          Prod.ext rfl hres
        rw [Reconcile_resolved r request policy _ cs hget hon hres2]
        constructor
        · intro h
          simp only at h
          split at h <;> cases h
        · rintro (h | ⟨p, hp, _, hr⟩)
          · exact absurd h hleft
          · cases hp; rw [hres] at hr; cases hr

/-- A reconciliation that returns no error returns success, unless it panics; and it
panics only when a request on the URL of the key cannot be built or an object
template of the Policy is nil or embeds a role binding without a subject. -/
theorem Reconcile_success_or_panic (r : PolicyReconciler) (request : Request)
    (hno : ∀ e, (Reconcile r request).2 ≠ .returned Result.zero (some e)) :
    (Reconcile r request).2 = .returned Result.zero none ∨
      ((Reconcile r request).2 = .panicked ∧
        (r.NewRequest "DELETE" (entryURL request) = false ∨
          r.NewRequest "PUT" (entryURL request) = false ∨
          ∃ policy, r.getPolicy request.Namespace request.Name = .ok policy ∧
            everySubjectPresent policy = false)) := by
  cases hget : r.getPolicy request.Namespace request.Name with
  | error err =>
    cases hnf : IsNotFound err with
    | true =>
      cases hdel : r.NewRequest "DELETE" (entryURL request) with
      | true => rw [Reconcile_notFound r request err hget hnf hdel]; exact Or.inl rfl
      | false =>
        rw [Reconcile_notFound_rejected r request err hget hnf hdel]
        exact Or.inr ⟨rfl, Or.inl rfl⟩
    | false =>
      exact absurd (by rw [Reconcile_getFailed r request err hget hnf]) (hno err)
  | ok policy =>
    cases hon : enabled policy with
    | false => rw [Reconcile_disabled r request policy hget hon]; exact Or.inl rfl
    | true =>
      cases hres : (getManagedClusters r policy).2 with
      | error err =>
        have hres2 : getManagedClusters r policy = ((getManagedClusters r policy).1, .error err) :=
          Prod.ext rfl hres
        exact absurd (by rw [Reconcile_resolveFailed r request policy _ err hget hon hres2])
          (hno err)
      | ok cs =>
        cases hput : r.NewRequest "PUT" (entryURL request) with
        | false =>
          have hres2 : getManagedClusters r policy = ((getManagedClusters r policy).1, .ok cs) :=
            Prod.ext rfl hres
          rw [Reconcile_resolved r request policy _ cs hget hon hres2]
          simp only
          split
          · exact Or.inl rfl
          · exact Or.inr ⟨rfl, Or.inr (Or.inl trivial)⟩
        | true =>
          cases hall : everySubjectPresent policy with
          | true =>
            exact Or.inl (Reconcile_upserts r request policy cs hget hon hres hput hall).2
          | false =>
            have hres2 : getManagedClusters r policy
                = ((getManagedClusters r policy).1, .ok cs) := Prod.ext rfl hres
            rw [Reconcile_resolved r request policy _ cs hget hon hres2]
            simp only
            split
            · exact Or.inl rfl
            · exact Or.inr ⟨rfl, Or.inr (Or.inr ⟨policy, rfl, hall⟩)⟩

/-- An enabled Policy whose ConfigurationPolicy template reads
`object-templates: [null]`: every read succeeds and `Reconcile` panics at the nil
entry (line 137) before any upsert. -/
theorem null_object_template_panics :
    Reconcile nullObjectTemplate requestP1 =
      ([.getPolicy "default" "p1", .listPlacementBindings "default",
        .getPlacementRule "default" "r1"], .panicked) := by
  decide

/-- An enabled Policy bound to a placement rule that does not exist: the not-found
error of the fetch (lines 211-225) is returned by `Reconcile` and nothing is sent. -/
theorem missing_rule_error_is_returned :
    Reconcile missingRule requestP1 =
      ([.getPolicy "default" "p1", .listPlacementBindings "default",
        .getPlacementRule "default" "r1"],
        .returned { Requeue := false, RequeueAfter := 0 } (some (.notFound "r1"))) := by
  decide

end RbacSync
